import Mathlib

/-!
Verification of the photo-booth capture/composite pipeline.

The definitions below are a shallow embedding of the pipeline's geometry and
control logic: `captureFrame` and the inline cover-fit crop it computes, the
mask anchor formulas of the raster drawers and of the live CSS overlay, the
composite layout engine's canvas dimensions and cell placements, the countdown
recording buffer, and the video assembler's input guards.  JavaScript number
arithmetic is modelled over the rationals, with `Int.floor` for `Math.floor`,
`round` for `Math.round` and `Int.ceil` for `Math.ceil`.
-/

namespace PhotoBooth

/-- Layout kinds of the composite engine (enum `GridType`). -/
inductive GridType
  | single
  | strip3
  | strip4
  | grid2x2
deriving DecidableEq

/-- A crop rectangle in source pixels: offsets `sX`, `sY` and size `sW`, `sH`,
as computed by `captureFrame` and by the 2x2 branch of `generateComposite`. -/
structure CropRect where
  sX : ℤ
  sY : ℤ
  sW : ℤ
  sH : ℤ
deriving DecidableEq

/-- The cover-fit crop of `captureFrame` before flooring: branch on
`videoRatio > targetRatio` with target aspect 4:3.  Wider sources keep the
full height and crop the width symmetrically; taller-or-equal sources keep
the full width and crop the height symmetrically.  Returns
`(sX, sY, sW, sH)` as rationals. -/
def coverCropQ (videoWidth videoHeight : ℕ) : ℚ × ℚ × ℚ × ℚ :=
  let targetAspect : ℚ := 4 / 3
  let videoAspect : ℚ := (videoWidth : ℚ) / (videoHeight : ℚ)
  if targetAspect < videoAspect then
    let sH : ℚ := (videoHeight : ℚ)
    let sW : ℚ := sH * targetAspect
    (((videoWidth : ℚ) - sW) / 2, 0, sW, sH)
  else
    let sW : ℚ := (videoWidth : ℚ)
    let sH : ℚ := sW / targetAspect
    (0, ((videoHeight : ℚ) - sH) / 2, sW, sH)

/-- The integer crop rectangle of `captureFrame`: every component of the
rational crop is passed through `Math.floor`. -/
def coverCrop (videoWidth videoHeight : ℕ) : CropRect :=
  let q := coverCropQ videoWidth videoHeight
  ⟨⌊q.1⌋, ⌊q.2.1⌋, ⌊q.2.2.1⌋, ⌊q.2.2.2⌋⟩

/-- The per-cell re-crop of the 2x2 branch of `generateComposite`, before
flooring.  The source duplicates the `captureFrame` crop formula verbatim
(same 4:3 target, same branch condition, same centring). -/
def gridCellCropQ (sourceW sourceH : ℕ) : ℚ × ℚ × ℚ × ℚ :=
  let targetAspect : ℚ := 4 / 3
  let sourceAspect : ℚ := (sourceW : ℚ) / (sourceH : ℚ)
  if targetAspect < sourceAspect then
    let sH : ℚ := (sourceH : ℚ)
    let sW : ℚ := sH * targetAspect
    (((sourceW : ℚ) - sW) / 2, 0, sW, sH)
  else
    let sW : ℚ := (sourceW : ℚ)
    let sH : ℚ := sW / targetAspect
    (0, ((sourceH : ℚ) - sH) / 2, sW, sH)

/-- Floored per-cell crop rectangle of the 2x2 branch of
`generateComposite`. -/
def gridCellCrop (sourceW sourceH : ℕ) : CropRect :=
  let q := gridCellCropQ sourceW sourceH
  ⟨⌊q.1⌋, ⌊q.2.1⌋, ⌊q.2.2.1⌋, ⌊q.2.2.2⌋⟩

section CoverCropLemmas

/-- In the wide branch (source aspect strictly above 4:3) the floored crop is
full height, width `(4h) / 3` rounded down, and a floored centred x offset. -/
lemma coverCrop_wide (w h : ℕ) (hh : 0 < h) (hcond : 4 * h < 3 * w) :
    coverCrop w h =
      ⟨⌊(((w : ℚ) - (h : ℚ) * (4 / 3)) / 2)⌋, 0, (4 * (h : ℤ)) / 3, (h : ℤ)⟩ := by
  have hhq : (0 : ℚ) < (h : ℚ) := by exact_mod_cast hh
  have hlt : (4 : ℚ) / 3 < (w : ℚ) / (h : ℚ) := by
    rw [div_lt_div_iff₀ (by norm_num) hhq]
    have hq : (4 : ℚ) * h < 3 * w := by exact_mod_cast hcond
    linarith
  unfold coverCrop coverCropQ
  rw [if_pos hlt]
  have hsw : ⌊(h : ℚ) * (4 / 3)⌋ = (4 * (h : ℤ)) / 3 := by
    rw [show (h : ℚ) * (4 / 3) = ((4 * (h : ℤ) : ℤ) : ℚ) / ((3 : ℕ) : ℚ) by
      push_cast; ring]
    rw [Rat.floor_intCast_div_natCast]
    norm_num
  simp only [hsw, Int.floor_natCast, Int.floor_zero]

/-- In the tall-or-equal branch (source aspect at most 4:3) the floored crop
is full width, height `(3w) / 4` rounded down, and a floored centred y
offset. -/
lemma coverCrop_tall (w h : ℕ) (hh : 0 < h) (hcond : 3 * w ≤ 4 * h) :
    coverCrop w h =
      ⟨0, ⌊(((h : ℚ) - (w : ℚ) / (4 / 3)) / 2)⌋, (w : ℤ), (3 * (w : ℤ)) / 4⟩ := by
  have hhq : (0 : ℚ) < (h : ℚ) := by exact_mod_cast hh
  have hle : ¬ ((4 : ℚ) / 3 < (w : ℚ) / (h : ℚ)) := by
    rw [not_lt, div_le_div_iff₀ hhq (by norm_num)]
    have hq : (3 : ℚ) * w ≤ 4 * h := by exact_mod_cast hcond
    linarith
  unfold coverCrop coverCropQ
  rw [if_neg hle]
  have hsh : ⌊(w : ℚ) / (4 / 3)⌋ = (3 * (w : ℤ)) / 4 := by
    rw [show (w : ℚ) / (4 / 3) = ((3 * (w : ℤ) : ℤ) : ℚ) / ((4 : ℕ) : ℚ) by
      push_cast; ring]
    rw [Rat.floor_intCast_div_natCast]
    norm_num
  simp only [hsh, Int.floor_natCast, Int.floor_zero]

end CoverCropLemmas

/-- Claim C1: for every frame source with positive intrinsic width and height,
the cover-fit crop rectangle computed by `captureFrame` satisfies: the crop
aspect equals 4:3 within rounding tolerance (here `|3 sW - 4 sH| ≤ 3`), the
crop fits inside the source (`sW ≤ srcW`, `sH ≤ srcH`), the offsets are
nonnegative and centred within rounding tolerance
(`|2 sX - (srcW - sW)| ≤ 2`, analogously for y), all four values are the
floors of the corresponding real-valued crop, and the 2x2 cell crop of
`generateComposite` computes the identical rectangle. -/
theorem coverCrop_cover_spec (w h : ℕ) (hw : 0 < w) (hh : 0 < h) :
    (3 * (coverCrop w h).sW - 4 * (coverCrop w h).sH).natAbs ≤ 3 ∧
    (coverCrop w h).sW ≤ (w : ℤ) ∧
    (coverCrop w h).sH ≤ (h : ℤ) ∧
    0 ≤ (coverCrop w h).sX ∧
    0 ≤ (coverCrop w h).sY ∧
    (2 * (coverCrop w h).sX - ((w : ℤ) - (coverCrop w h).sW)).natAbs ≤ 2 ∧
    (2 * (coverCrop w h).sY - ((h : ℤ) - (coverCrop w h).sH)).natAbs ≤ 2 ∧
    (coverCrop w h).sX = ⌊(coverCropQ w h).1⌋ ∧
    (coverCrop w h).sY = ⌊(coverCropQ w h).2.1⌋ ∧
    (coverCrop w h).sW = ⌊(coverCropQ w h).2.2.1⌋ ∧
    (coverCrop w h).sH = ⌊(coverCropQ w h).2.2.2⌋ ∧
    gridCellCrop w h = coverCrop w h := by
  have key :
      (3 * (coverCrop w h).sW - 4 * (coverCrop w h).sH).natAbs ≤ 3 ∧
      (coverCrop w h).sW ≤ (w : ℤ) ∧
      (coverCrop w h).sH ≤ (h : ℤ) ∧
      0 ≤ (coverCrop w h).sX ∧
      0 ≤ (coverCrop w h).sY ∧
      (2 * (coverCrop w h).sX - ((w : ℤ) - (coverCrop w h).sW)).natAbs ≤ 2 ∧
      (2 * (coverCrop w h).sY - ((h : ℤ) - (coverCrop w h).sH)).natAbs ≤ 2 := by
    rcases lt_or_le (4 * h) (3 * w) with hcond | hcond
    · rw [coverCrop_wide w h hh hcond]
      dsimp only
      have hqc : (4 : ℚ) * h < 3 * w := by exact_mod_cast hcond
      set e : ℤ := (4 * (h : ℤ)) / 3 with he
      set x : ℤ := ⌊(((w : ℚ) - (h : ℚ) * (4 / 3)) / 2)⌋ with hx
      have hde : 3 * e + 4 * (h : ℤ) % 3 = 4 * h := Int.ediv_add_emod _ _
      have hm0 : 0 ≤ 4 * (h : ℤ) % 3 := Int.emod_nonneg _ (by norm_num)
      have hm3 : 4 * (h : ℤ) % 3 < 3 := Int.emod_lt_of_pos _ (by norm_num)
      have hcondZ : 4 * (h : ℤ) < 3 * (w : ℤ) := by exact_mod_cast hcond
      have hq1 : ((x : ℚ)) ≤ ((w : ℚ) - (h : ℚ) * (4 / 3)) / 2 := Int.floor_le _
      have hq2 : ((w : ℚ) - (h : ℚ) * (4 / 3)) / 2 < (x : ℚ) + 1 :=
        Int.lt_floor_add_one _
      have heq1 : ((e : ℚ)) ≤ (h : ℚ) * (4 / 3) := by
        have h3e : 3 * e ≤ 4 * (h : ℤ) := by omega
        have : (3 : ℚ) * (e : ℚ) ≤ 4 * (h : ℚ) := by exact_mod_cast h3e
        linarith
      have heq2 : (h : ℚ) * (4 / 3) < (e : ℚ) + 1 := by
        have h3e : 4 * (h : ℤ) < 3 * e + 3 := by omega
        have : (4 : ℚ) * (h : ℚ) < 3 * (e : ℚ) + 3 := by exact_mod_cast h3e
        linarith
      have hub : 2 * x ≤ (w : ℤ) - e := by
        have : 2 * (x : ℚ) ≤ (w : ℚ) - (e : ℚ) := by linarith
        exact_mod_cast this
      have hlb : (w : ℤ) - e - 3 < 2 * x := by
        have : (w : ℚ) - (e : ℚ) - 3 < 2 * (x : ℚ) := by linarith
        exact_mod_cast this
      have hx0 : 0 ≤ x := by
        rw [hx]
        apply Int.le_floor.mpr
        push_cast
        linarith
      refine ⟨by omega, by omega, le_refl _, hx0, le_refl _, by omega, by omega⟩
    · rw [coverCrop_tall w h hh hcond]
      dsimp only
      have hqc : (3 : ℚ) * w ≤ 4 * h := by exact_mod_cast hcond
      have hwdiv : (w : ℚ) / (4 / 3) = 3 * (w : ℚ) / 4 := by ring
      set f : ℤ := (3 * (w : ℤ)) / 4 with hf
      set y : ℤ := ⌊(((h : ℚ) - (w : ℚ) / (4 / 3)) / 2)⌋ with hy
      have hde : 4 * f + 3 * (w : ℤ) % 4 = 3 * w := Int.ediv_add_emod _ _
      have hm0 : 0 ≤ 3 * (w : ℤ) % 4 := Int.emod_nonneg _ (by norm_num)
      have hm4 : 3 * (w : ℤ) % 4 < 4 := Int.emod_lt_of_pos _ (by norm_num)
      have hcondZ : 3 * (w : ℤ) ≤ 4 * (h : ℤ) := by exact_mod_cast hcond
      have hq1 : ((y : ℚ)) ≤ ((h : ℚ) - (w : ℚ) / (4 / 3)) / 2 := Int.floor_le _
      have hq2 : ((h : ℚ) - (w : ℚ) / (4 / 3)) / 2 < (y : ℚ) + 1 :=
        Int.lt_floor_add_one _
      rw [hwdiv] at hq1 hq2
      have heq1 : ((f : ℚ)) ≤ 3 * (w : ℚ) / 4 := by
        have h4f : 4 * f ≤ 3 * (w : ℤ) := by omega
        have : (4 : ℚ) * (f : ℚ) ≤ 3 * (w : ℚ) := by exact_mod_cast h4f
        linarith
      have heq2 : 3 * (w : ℚ) / 4 < (f : ℚ) + 1 := by
        have h4f : 3 * (w : ℤ) < 4 * f + 4 := by omega
        have : (3 : ℚ) * (w : ℚ) < 4 * (f : ℚ) + 4 := by exact_mod_cast h4f
        linarith
      have hub : 2 * y ≤ (h : ℤ) - f := by
        have : 2 * (y : ℚ) ≤ (h : ℚ) - (f : ℚ) := by linarith
        exact_mod_cast this
      have hlb : (h : ℤ) - f - 3 < 2 * y := by
        have : (h : ℚ) - (f : ℚ) - 3 < 2 * (y : ℚ) := by linarith
        exact_mod_cast this
      have hy0 : 0 ≤ y := by
        rw [hy]
        apply Int.le_floor.mpr
        rw [hwdiv]
        push_cast
        linarith
      refine ⟨by omega, le_refl _, by omega, le_refl _, hy0, by omega, by omega⟩
  exact ⟨key.1, key.2.1, key.2.2.1, key.2.2.2.1, key.2.2.2.2.1,
    key.2.2.2.2.2.1, key.2.2.2.2.2.2, rfl, rfl, rfl, rfl, rfl⟩

/-- Witness for C1 at a concrete 1280x720 source. -/
theorem coverCrop_cover_spec_witness :
    (0 < 1280 ∧ 0 < 720) ∧
    ((3 * (coverCrop 1280 720).sW - 4 * (coverCrop 1280 720).sH).natAbs ≤ 3 ∧
      (coverCrop 1280 720).sW ≤ (1280 : ℤ) ∧
      (coverCrop 1280 720).sH ≤ (720 : ℤ) ∧
      0 ≤ (coverCrop 1280 720).sX ∧
      0 ≤ (coverCrop 1280 720).sY ∧
      (2 * (coverCrop 1280 720).sX - ((1280 : ℤ) - (coverCrop 1280 720).sW)).natAbs ≤ 2 ∧
      (2 * (coverCrop 1280 720).sY - ((720 : ℤ) - (coverCrop 1280 720).sH)).natAbs ≤ 2 ∧
      (coverCrop 1280 720).sX = ⌊(coverCropQ 1280 720).1⌋ ∧
      (coverCrop 1280 720).sY = ⌊(coverCropQ 1280 720).2.1⌋ ∧
      (coverCrop 1280 720).sW = ⌊(coverCropQ 1280 720).2.2.1⌋ ∧
      (coverCrop 1280 720).sH = ⌊(coverCropQ 1280 720).2.2.2⌋ ∧
      gridCellCrop 1280 720 = coverCrop 1280 720) := by
  refine ⟨⟨by norm_num, by norm_num⟩, ?_⟩
  have := coverCrop_cover_spec 1280 720 (by norm_num) (by norm_num)
  exact_mod_cast this

/-- Dynamic spacing regime of `generateComposite`: sources narrower than
500px use half-scale spacing (`sourceW < 500 ? 0.5 : 1.0`). -/
def scaleFactor (sourceW : ℕ) : ℚ :=
  if sourceW < 500 then 1 / 2 else 1

/-- Outer border of the composite: `Math.round(70 * scaleFactor)`. -/
def padding (sourceW : ℕ) : ℤ :=
  round ((70 : ℚ) * scaleFactor sourceW)

/-- Space between cells: `Math.round(70 * scaleFactor)`. -/
def gap (sourceW : ℕ) : ℤ :=
  round ((70 : ℚ) * scaleFactor sourceW)

/-- Footer band height: `Math.round(160 * scaleFactor)`. -/
def bottomLabelHeight (sourceW : ℕ) : ℤ :=
  round ((160 : ℚ) * scaleFactor sourceW)

/-- Canvas dimensions of `generateComposite` as a function of the first
raster's dimensions, the layout kind and the number of loaded images
(the `switch (gridType)` computing `canvasWidth`/`canvasHeight`, followed by
`Math.ceil`, which is the identity here because every summand is already an
integer). -/
def compositeDims (sourceW sourceH : ℕ) (g : GridType) (count : ℕ) : ℤ × ℤ :=
  let p := padding sourceW
  let gp := gap sourceW
  let b := bottomLabelHeight sourceW
  match g with
  | GridType.single =>
      ((sourceW : ℤ) + 2 * p, (sourceH : ℤ) + 2 * p + b)
  | GridType.strip3 | GridType.strip4 =>
      ((sourceW : ℤ) + 2 * p,
       (sourceH : ℤ) * count + gp * ((count : ℤ) - 1) + 2 * p + b)
  | GridType.grid2x2 =>
      let c := gridCellCrop sourceW sourceH
      (2 * c.sW + gp + 2 * p, 2 * c.sH + gp + 2 * p + b)

/-- Claim C2 counterexample: for four 800x600 stills in the 2x2 grid at the
high-resolution regime the canvas is 1810x1570, not the claimed 1610x1570
(the claimed width drops one of the two 100-pixel contributions:
`800*2 + 70 + 2*70 = 1810`). -/
theorem compositeDims_grid2x2_not_1610 :
    compositeDims 800 600 GridType.grid2x2 4 = (1810, 1570) ∧
    compositeDims 800 600 GridType.grid2x2 4 ≠ (1610, 1570) := by
  have hval : compositeDims 800 600 GridType.grid2x2 4 = (1810, 1570) := by
    norm_num [compositeDims, gridCellCrop, gridCellCropQ, padding, gap,
      bottomLabelHeight, scaleFactor]
  exact ⟨hval, by rw [hval]; decide⟩

/-- Claim C2 (amended): four 800x600 stills, 2x2 grid, high-resolution
regime (padding 70, gap 70, footer 160) give a 1810x1570 canvas:
`(800*2 + 70 + 140) x (600*2 + 70 + 140 + 160)`. -/
theorem compositeDims_grid2x2_spec :
    compositeDims 800 600 GridType.grid2x2 4 = (1810, 1570) := by
  norm_num [compositeDims, gridCellCrop, gridCellCropQ, padding, gap,
    bottomLabelHeight, scaleFactor]

/-- Claim C7: the padding, gap and footer-band height are exactly half their
high-resolution values whenever the first raster is narrower than 500
pixels, and exactly the full values from 500 pixels up. -/
theorem scaling_regime_spec (w : ℕ) :
    (w < 500 → padding w = 35 ∧ gap w = 35 ∧ bottomLabelHeight w = 80) ∧
    (500 ≤ w → padding w = 70 ∧ gap w = 70 ∧ bottomLabelHeight w = 160) := by
  constructor
  · intro hlt
    simp only [padding, gap, bottomLabelHeight, scaleFactor, if_pos hlt]
    norm_num
  · intro hge
    simp only [padding, gap, bottomLabelHeight, scaleFactor,
      if_neg (by omega : ¬ w < 500)]
    norm_num

/-- Witness for C7 at the low-resolution width 320 and the high-resolution
width 800. -/
theorem scaling_regime_spec_witness :
    (padding 320 = 35 ∧ gap 320 = 35 ∧ bottomLabelHeight 320 = 80) ∧
    (padding 800 = 70 ∧ gap 800 = 70 ∧ bottomLabelHeight 800 = 160) :=
  ⟨(scaling_regime_spec 320).1 (by norm_num),
   (scaling_regime_spec 800).2 (by norm_num)⟩

/-- A face estimate: normalized bounding-box coordinates in [0,1] relative to
the source frame, plus the source's intrinsic pixel dimensions (interface
`FaceData`). -/
structure FaceData where
  x : ℚ
  y : ℚ
  width : ℚ
  height : ℚ
  videoWidth : ℕ
  videoHeight : ℕ
deriving DecidableEq

/-- Result of `getOverlayStyle`: the CSS left/top values in percent and the
scale applied in the transform (the default style has no scale entry in its
transform, which is the identity scale 1). -/
structure OverlayStyle where
  left : ℚ
  top : ℚ
  scale : ℚ
deriving DecidableEq

/-- The object-fit-cover remap inside `getOverlayStyle`: given a face
estimate and the container's aspect, returns
`(normalizedX, normalizedY, visibleH)`.  When the video is wider than the
container only x is remapped by the visible fraction of the width; when it
is taller only y is remapped (and the visible height rescaled); when the
aspects agree nothing changes. -/
def remapForContainerCover (f : FaceData) (containerAspect : ℚ) : ℚ × ℚ × ℚ :=
  let videoAspect : ℚ := (f.videoWidth : ℚ) / (f.videoHeight : ℚ)
  if containerAspect < videoAspect then
    let visibleFraction := ((f.videoHeight : ℚ) * containerAspect) / (f.videoWidth : ℚ)
    let offset := (1 - visibleFraction) / 2
    ((f.x - offset) / visibleFraction, f.y, f.height)
  else if videoAspect < containerAspect then
    let visibleFraction := ((f.videoWidth : ℚ) / containerAspect) / (f.videoHeight : ℚ)
    let offset := (1 - visibleFraction) / 2
    (f.x, (f.y - offset) / visibleFraction, f.height / visibleFraction)
  else
    (f.x, f.y, f.height)

/-- The live display-layer overlay style (`getOverlayStyle`): without a face
estimate (or with degenerate source dimensions, the JavaScript truthiness
check on `videoWidth`/`videoHeight`) the fallback is left 50%, top 30%,
scale 1; with a face the remapped coordinates give
`left = normalizedX * 100`, `top = (normalizedY - visibleH * 0.6) * 100`
and `scale = faceData.width / 0.35`. -/
def getOverlayStyle (faceData : Option FaceData) (containerAspect : ℚ) :
    OverlayStyle :=
  match faceData with
  | none => ⟨50, 30, 1⟩
  | some f =>
    if 0 < f.videoWidth ∧ 0 < f.videoHeight then
      let r := remapForContainerCover f containerAspect
      ⟨r.1 * 100, (r.2.1 - r.2.2 * (6 / 10)) * 100, f.width / (35 / 100)⟩
    else ⟨50, 30, 1⟩

/-- Anchor and base scale of the raster mask drawer `drawMask` baked into the
captured still: default is the canvas centre horizontally, 30% down, scale 1;
with a face the anchor is `(x * width, (y - height * 0.6) * height)` and the
base scale `width / 0.35`. -/
structure MaskAnchor where
  centerX : ℚ
  centerY : ℚ
  baseScale : ℚ
deriving DecidableEq

/-- Anchor logic of `drawMask` (the mask drawer used by the latest
`captureFrame`). -/
def drawMaskAnchor (width height : ℚ) (faceData : Option FaceData) :
    MaskAnchor :=
  match faceData with
  | none => ⟨width / 2, height * (3 / 10), 1⟩
  | some f => ⟨f.x * width, (f.y - f.height * (6 / 10)) * height,
      f.width / (35 / 100)⟩

/-- Anchor logic of `drawHeartsMask` in `utils/imageProcessing.ts`: same
default and same x/scale formulas, but the y anchor subtracts
`0.55 * height` of the face instead of `0.6`. -/
def drawHeartsMaskAnchor (width height : ℚ) (faceData : Option FaceData) :
    MaskAnchor :=
  match faceData with
  | none => ⟨width / 2, height * (3 / 10), 1⟩
  | some f => ⟨f.x * width, f.y * height - f.height * height * (55 / 100),
      f.width / (35 / 100)⟩

lemma remapForContainerCover_id (f : FaceData) :
    remapForContainerCover f ((f.videoWidth : ℚ) / (f.videoHeight : ℚ)) =
      (f.x, f.y, f.height) := by
  rw [remapForContainerCover, if_neg (lt_irrefl _), if_neg (lt_irrefl _)]

/-- Claim C4: with no face estimate the live overlay style is the anchor
fraction (0.5, 0.3) — left 50%, top 30% — at scale 1 for every container
aspect, and the raster mask drawer anchors at `(width / 2, 0.3 * height)`
with base scale 1. -/
theorem default_anchor_spec (r width height : ℚ) :
    getOverlayStyle none r = ⟨50, 30, 1⟩ ∧
    drawMaskAnchor width height none = ⟨width / 2, height * (3 / 10), 1⟩ :=
  ⟨rfl, rfl⟩

/-- Claim C5: for a face estimate with positive source dimensions, the
live-display remap touches only x when the video is wider than the container
(dividing by the visible fraction `videoHeight * containerRatio / videoWidth`
after subtracting the centring offset), touches only y (and the visible
height) when the video is taller, and is the identity when the aspects
agree. -/
theorem remap_cover_spec (f : FaceData) (containerAspect : ℚ)
    (hw : 0 < f.videoWidth) (hh : 0 < f.videoHeight) :
    (containerAspect < (f.videoWidth : ℚ) / (f.videoHeight : ℚ) →
      remapForContainerCover f containerAspect =
        ((f.x - (1 - ((f.videoHeight : ℚ) * containerAspect) / (f.videoWidth : ℚ)) / 2) /
            (((f.videoHeight : ℚ) * containerAspect) / (f.videoWidth : ℚ)),
         f.y, f.height)) ∧
    ((f.videoWidth : ℚ) / (f.videoHeight : ℚ) < containerAspect →
      remapForContainerCover f containerAspect =
        (f.x,
         (f.y - (1 - ((f.videoWidth : ℚ) / containerAspect) / (f.videoHeight : ℚ)) / 2) /
            (((f.videoWidth : ℚ) / containerAspect) / (f.videoHeight : ℚ)),
         f.height / (((f.videoWidth : ℚ) / containerAspect) / (f.videoHeight : ℚ)))) ∧
    ((f.videoWidth : ℚ) / (f.videoHeight : ℚ) = containerAspect →
      remapForContainerCover f containerAspect = (f.x, f.y, f.height)) := by
  refine ⟨?_, ?_, ?_⟩
  · intro hlt
    rw [remapForContainerCover, if_pos hlt]
  · intro hlt
    rw [remapForContainerCover, if_neg (by exact not_lt_of_gt hlt), if_pos hlt]
  · intro heqn
    rw [remapForContainerCover, if_neg (by rw [heqn]; exact lt_irrefl _),
      if_neg (by rw [heqn]; exact lt_irrefl _)]

/-- Witness for C5 with a 16:9 source in a 4:3 container (wide case) and the
same source in a 16:9 container (identity case). -/
theorem remap_cover_spec_witness :
    remapForContainerCover ⟨1/2, 1/2, 1/5, 1/5, 16, 9⟩ (4/3) =
      (1/2, 1/2, 1/5) ∧
    remapForContainerCover ⟨1/2, 1/2, 1/5, 1/5, 16, 9⟩ (16/9) =
      (1/2, 1/2, 1/5) := by
  constructor
  · have h := (remap_cover_spec ⟨1/2, 1/2, 1/5, 1/5, 16, 9⟩ (4/3)
      (by norm_num) (by norm_num)).1 (by norm_num)
    rw [h]
    norm_num
  · have h := (remap_cover_spec ⟨1/2, 1/2, 1/5, 1/5, 16, 9⟩ (16/9)
      (by norm_num) (by norm_num)).2.2 (by norm_num)
    rw [h]

/-- Claim C6 counterexample: the two raster mask pipelines disagree on the y
anchor — `drawMask` subtracts `0.6 * faceHeight` while `drawHeartsMask`
subtracts `0.55 * faceHeight` — already on a 100x100 canvas with a centred
face of normalized height 1/5 (y anchor 38 versus 39). -/
theorem mask_anchor_mismatch :
    drawMaskAnchor 100 100 (some ⟨1/2, 1/2, 35/100, 1/5, 640, 480⟩) ≠
    drawHeartsMaskAnchor 100 100 (some ⟨1/2, 1/2, 35/100, 1/5, 640, 480⟩) := by
  intro hcontra
  have h38 : (drawMaskAnchor 100 100
      (some ⟨1/2, 1/2, 35/100, 1/5, 640, 480⟩)).centerY = 38 := by
    norm_num [drawMaskAnchor]
  have h39 : (drawHeartsMaskAnchor 100 100
      (some ⟨1/2, 1/2, 35/100, 1/5, 640, 480⟩)).centerY = 39 := by
    norm_num [drawHeartsMaskAnchor]
  rw [hcontra, h39] at h38
  norm_num at h38

/-- Claim C6 (amended): the decoration pipelines agree on the anchor x
(`faceX * width`) and on the scale (`faceWidth / 0.35`) for every input, and
the baked `drawMask` formula coincides exactly with the live overlay under an
identity container remap (same 0.6 y coefficient, positions in fractions
versus percent); but the y anchors of the two raster drawers differ
(`0.6` versus `0.55` times the face height), so full equivalence fails. -/
theorem mask_anchor_partial_equiv (width height : ℚ) (fd : Option FaceData)
    (f : FaceData) (hw : 0 < f.videoWidth) (hh : 0 < f.videoHeight) :
    (drawMaskAnchor width height fd).centerX =
      (drawHeartsMaskAnchor width height fd).centerX ∧
    (drawMaskAnchor width height fd).baseScale =
      (drawHeartsMaskAnchor width height fd).baseScale ∧
    getOverlayStyle (some f) ((f.videoWidth : ℚ) / (f.videoHeight : ℚ)) =
      ⟨(drawMaskAnchor 1 1 (some f)).centerX * 100,
       (drawMaskAnchor 1 1 (some f)).centerY * 100,
       (drawMaskAnchor 1 1 (some f)).baseScale⟩ := by
  refine ⟨?_, ?_, ?_⟩
  · cases fd <;> rfl
  · cases fd <;> rfl
  · have hid : remapForContainerCover f ((f.videoWidth : ℚ) / (f.videoHeight : ℚ)) =
        (f.x, f.y, f.height) := remapForContainerCover_id f
    rw [getOverlayStyle, if_pos ⟨hw, hh⟩]
    rw [hid]
    show (⟨f.x * 100, (f.y - f.height * (6 / 10)) * 100, f.width / (35 / 100)⟩ :
      OverlayStyle) = _
    rw [drawMaskAnchor]
    show _ = (⟨f.x * 1 * 100, (f.y - f.height * (6 / 10)) * 1 * 100,
      f.width / (35 / 100)⟩ : OverlayStyle)
    rw [mul_one, mul_one]

/-- Witness for C6's amended equivalence at a concrete face estimate. -/
theorem mask_anchor_partial_equiv_witness :
    (drawMaskAnchor 640 480 (some ⟨1/2, 1/2, 35/100, 1/5, 640, 480⟩)).centerX =
      (drawHeartsMaskAnchor 640 480 (some ⟨1/2, 1/2, 35/100, 1/5, 640, 480⟩)).centerX ∧
    (drawMaskAnchor 640 480 (some ⟨1/2, 1/2, 35/100, 1/5, 640, 480⟩)).baseScale =
      (drawHeartsMaskAnchor 640 480 (some ⟨1/2, 1/2, 35/100, 1/5, 640, 480⟩)).baseScale ∧
    getOverlayStyle (some ⟨1/2, 1/2, 35/100, 1/5, 640, 480⟩) ((640 : ℚ) / 480) =
      ⟨(drawMaskAnchor 1 1 (some ⟨1/2, 1/2, 35/100, 1/5, 640, 480⟩)).centerX * 100,
       (drawMaskAnchor 1 1 (some ⟨1/2, 1/2, 35/100, 1/5, 640, 480⟩)).centerY * 100,
       (drawMaskAnchor 1 1 (some ⟨1/2, 1/2, 35/100, 1/5, 640, 480⟩)).baseScale⟩ := by
  have h := mask_anchor_partial_equiv 640 480
    (some ⟨1/2, 1/2, 35/100, 1/5, 640, 480⟩)
    ⟨1/2, 1/2, 35/100, 1/5, 640, 480⟩ (by norm_num) (by norm_num)
  exact_mod_cast h

/-- The clip cap of `startCountdown`:
`Math.ceil(timerDuration * 1000 / captureInterval)` with a 100ms sampling
interval. -/
def maxFrames (timerDuration : ℕ) : ℕ :=
  (⌈((timerDuration * 1000 : ℕ) : ℚ) / 100⌉).toNat

/-- One firing of the recording interval of `startCountdown`: when the video
is ready the sampled frame is pushed and, if the clip now exceeds the cap,
the oldest entry is shifted off. -/
def recordingTick {α : Type} (ready : Bool) (frame : α) (cap : ℕ)
    (clip : List α) : List α :=
  if ready then
    let pushed := clip ++ [frame]
    if cap < pushed.length then pushed.drop 1 else pushed
  else clip

/-- A whole countdown recording: the interval callback folded over the
sequence of tick events, starting from the empty clip. -/
def runRecording {α : Type} (cap : ℕ) (events : List (Bool × α)) : List α :=
  events.foldl (fun clip e => recordingTick e.1 e.2 cap clip) []

/-- Sealing of the clip in `takePhoto`: when the clip is nonempty the
shutter still is appended `freezeFrames = 5` times. -/
def sealClip {α : Type} (photo : α) (clip : List α) : List α :=
  if 0 < clip.length then clip ++ List.replicate 5 photo else clip

lemma recordingTick_length_le {α : Type} (ready : Bool) (frame : α) (cap : ℕ)
    (clip : List α) (hle : clip.length ≤ cap) :
    (recordingTick ready frame cap clip).length ≤ cap := by
  unfold recordingTick
  split
  · dsimp only
    split
    · rename_i hgt
      simp only [List.length_drop, List.length_append, List.length_singleton]
      omega
    · rename_i hng
      simp only [List.length_append, List.length_singleton] at hng ⊢
      omega
  · exact hle

lemma foldl_recordingTick_length_le {α : Type} (cap : ℕ)
    (events : List (Bool × α)) (clip : List α) (hle : clip.length ≤ cap) :
    (events.foldl (fun c e => recordingTick e.1 e.2 cap c) clip).length ≤ cap := by
  induction events generalizing clip with
  | nil => simpa using hle
  | cons e es ih => exact ih _ (recordingTick_length_le e.1 e.2 cap clip hle)

/-- Claim C3: during a countdown recording the in-progress clip never exceeds
`ceil(timerDurationMs / samplingIntervalMs)` entries (oldest dropped first);
with a 3s timer and 100ms sampling the cap is 30, and sealing a nonempty
clip appends the shutter still exactly 5 more times, for a final length of at
most 35. -/
theorem clip_cap_spec {α : Type} (t : ℕ) (events : List (Bool × α)) (photo : α)
    (clip : List α) :
    (runRecording (maxFrames t) events).length ≤ maxFrames t ∧
    maxFrames 3 = 30 ∧
    (clip ≠ [] → (sealClip photo clip).length = clip.length + 5) ∧
    (clip.length ≤ 30 → (sealClip photo clip).length ≤ 35) := by
  refine ⟨foldl_recordingTick_length_le _ _ _ (by simp), ?_, ?_, ?_⟩
  · have hceil : ⌈((3 * 1000 : ℕ) : ℚ) / 100⌉ = 30 := by norm_num
    rw [maxFrames, hceil]
    rfl
  · intro hne
    rw [sealClip, if_pos (List.length_pos.mpr hne)]
    simp
  · intro hle
    by_cases hc : 0 < clip.length
    · rw [sealClip, if_pos hc]
      simp only [List.length_append, List.length_replicate]
      omega
    · rw [sealClip, if_neg hc]
      omega

/-- Witness for C3 on a concrete two-tick recording and a two-frame clip. -/
theorem clip_cap_spec_witness :
    (runRecording (maxFrames 3) [(true, (0 : ℕ)), (true, 1)]).length ≤
      maxFrames 3 ∧
    maxFrames 3 = 30 ∧
    (sealClip 9 [0, 1]).length = 2 + 5 ∧
    (sealClip 9 [0, 1]).length ≤ 35 := by
  obtain ⟨h1, h2, h3, h4⟩ := clip_cap_spec 3 [(true, (0 : ℕ)), (true, 1)] 9 [0, 1]
  exact ⟨h1, h2, by simpa using h3 (by simp), h4 (by simp)⟩

/-- The frame source as seen by the sampling guard: the media element's
`readyState` and intrinsic pixel dimensions. -/
structure VideoSource where
  readyState : ℕ
  videoWidth : ℕ
  videoHeight : ℕ
deriving DecidableEq

/-- The canvas produced by `captureFrame`: its dimensions are exactly the
floored 4:3 cover-crop of the source. -/
structure StillRaster where
  width : ℤ
  height : ℤ
deriving DecidableEq

/-- Dimension behaviour of `captureFrame`: the capture canvas is sized to
the floored cover-fit crop (`canvas.width = sW`, `canvas.height = sH`). -/
def captureFrame (src : VideoSource) : StillRaster :=
  ⟨(coverCrop src.videoWidth src.videoHeight).sW,
   (coverCrop src.videoWidth src.videoHeight).sH⟩

/-- A canvas encodes to a real image only when it has pixels:
`toDataURL` on a zero-area canvas returns the null data URL `data:,`. -/
def StillRaster.nonEmpty (r : StillRaster) : Prop := 0 < r.width ∧ 0 < r.height

/-- The guarded per-tick capture of `startCountdown`: a sample is taken only
when `readyState >= 2 && videoWidth > 0`; otherwise the tick is skipped. -/
def captureSample (src : VideoSource) : Option StillRaster :=
  if 2 ≤ src.readyState ∧ 0 < src.videoWidth then some (captureFrame src)
  else none

lemma coverCrop_zero_width (h : ℕ) : (coverCrop 0 h).sW = 0 := by
  unfold coverCrop coverCropQ
  rw [if_neg]
  · simp
  · rw [Nat.cast_zero, zero_div]
    norm_num

lemma coverCrop_pos (w h : ℕ) (hw : 2 ≤ w) (hh : 0 < h) :
    0 < (coverCrop w h).sW ∧ 0 < (coverCrop w h).sH := by
  rcases lt_or_le (4 * h) (3 * w) with hcond | hcond
  · rw [coverCrop_wide w h hh hcond]
    dsimp only
    have hde : 3 * (4 * (h : ℤ) / 3) + 4 * (h : ℤ) % 3 = 4 * h :=
      Int.ediv_add_emod _ _
    have hm3 : 4 * (h : ℤ) % 3 < 3 := Int.emod_lt_of_pos _ (by norm_num)
    have hhZ : (1 : ℤ) ≤ (h : ℤ) := by exact_mod_cast hh
    constructor
    · omega
    · omega
  · rw [coverCrop_tall w h hh hcond]
    dsimp only
    have hde : 4 * (3 * (w : ℤ) / 4) + 3 * (w : ℤ) % 4 = 3 * w :=
      Int.ediv_add_emod _ _
    have hm4 : 3 * (w : ℤ) % 4 < 4 := Int.emod_lt_of_pos _ (by norm_num)
    have hwZ : (2 : ℤ) ≤ (w : ℤ) := by exact_mod_cast hw
    constructor
    · omega
    · omega

/-- Claim C8 counterexample: a source with positive intrinsic dimensions 1x1
is captured into a 1x0 canvas (the floored 4:3 crop height of a width-1
source is 0), which cannot encode to a still raster — so positive intrinsic
dimensions alone do not guarantee a raster. -/
theorem captureFrame_degenerate :
    (0 < (1 : ℕ)) ∧
    captureFrame ⟨4, 1, 1⟩ = ⟨1, 0⟩ ∧
    ¬ (captureFrame ⟨4, 1, 1⟩).nonEmpty := by
  have hcc : coverCrop 1 1 = ⟨0, 0, 1, 0⟩ := by
    rw [coverCrop_tall 1 1 (by norm_num) (by norm_num)]
    simp only [CropRect.mk.injEq]
    norm_num
  have hcf : captureFrame ⟨4, 1, 1⟩ = ⟨1, 0⟩ := by
    show (⟨(coverCrop 1 1).sW, (coverCrop 1 1).sH⟩ : StillRaster) = ⟨1, 0⟩
    rw [hcc]
  refine ⟨by norm_num, hcf, ?_⟩
  rw [hcf]
  rintro ⟨-, hcontra⟩
  exact absurd hcontra (by norm_num)

/-- Claim C8 (amended): a frame source with zero intrinsic width is skipped
by the sampling guard (no raster is produced, the `SourceNotReady` case) and
even a direct capture of it yields an empty canvas; every ready source
(`readyState >= 2`) with width at least 2 and positive height produces a
non-degenerate encoded still raster. -/
theorem captureSample_spec (src : VideoSource) :
    (src.videoWidth = 0 → captureSample src = none) ∧
    (src.videoWidth = 0 → ¬ (captureFrame src).nonEmpty) ∧
    (2 ≤ src.readyState → 2 ≤ src.videoWidth → 0 < src.videoHeight →
      ∃ r, captureSample src = some r ∧ r.nonEmpty) := by
  refine ⟨?_, ?_, ?_⟩
  · intro h0
    rw [captureSample, if_neg]
    rintro ⟨-, hpos⟩
    omega
  · intro h0
    rintro ⟨hw, -⟩
    rw [show (captureFrame src).width = (coverCrop src.videoWidth src.videoHeight).sW
      from rfl, h0, coverCrop_zero_width] at hw
    exact absurd hw (by norm_num)
  · intro hrs hw hh
    refine ⟨captureFrame src, ?_, ?_⟩
    · rw [captureSample, if_pos ⟨hrs, by omega⟩]
    · exact coverCrop_pos src.videoWidth src.videoHeight hw hh

/-- Witness for C8: a not-yet-ready source is skipped, and a ready 800x600
source yields a non-degenerate raster. -/
theorem captureSample_spec_witness :
    captureSample ⟨0, 0, 0⟩ = none ∧
    ¬ (captureFrame ⟨0, 0, 0⟩).nonEmpty ∧
    ∃ r, captureSample ⟨4, 800, 600⟩ = some r ∧ r.nonEmpty := by
  refine ⟨?_, ?_, ?_⟩
  · exact (captureSample_spec ⟨0, 0, 0⟩).1 rfl
  · exact (captureSample_spec ⟨0, 0, 0⟩).2.1 rfl
  · exact (captureSample_spec ⟨4, 800, 600⟩).2.2 (by norm_num) (by norm_num)
      (by norm_num)

/-- The composite result as a function of the loaded images' dimensions: an
empty input list returns the empty result before any drawing occurs; a
nonempty list produces the canvas dimensions computed from the first image
(`generateComposite`). -/
def generateCompositeResult (images : List (ℕ × ℕ)) (g : GridType) :
    Option (ℤ × ℤ) :=
  match images with
  | [] => none
  | (w, h) :: rest => some (compositeDims w h g (rest.length + 1))

/-- The synchronization bound of `generateVideo`:
`Math.min(...clips.map(c => c.length))`. -/
def minFrames {α : Type} (clips : List (List α)) : ℕ :=
  match clips with
  | [] => 0
  | c :: cs => cs.foldl (fun m k => Nat.min m k.length) c.length

/-- The video assembler's input handling (`generateVideo`): an empty clip
list or a zero minimum clip length aborts; otherwise the i-th frame of every
clip is gathered for each `i < minFrames` to build the composite frame
sequence. -/
def generateVideo {α : Type} (clips : List (List α)) :
    Option (List (List α)) :=
  match clips with
  | [] => none
  | c :: cs =>
    if minFrames (c :: cs) = 0 then none
    else some ((List.range (minFrames (c :: cs))).map
      (fun i => (c :: cs).filterMap (fun k => k[i]?)))

/-- Claim C9: on zero items both engines are no-ops — composing an empty
raster list returns the empty result, and video assembly aborts when the
clip list is empty or when `minFrames` is zero. -/
theorem empty_input_spec {α : Type} (g : GridType) (clips : List (List α)) :
    generateCompositeResult [] g = none ∧
    generateVideo ([] : List (List α)) = none ∧
    (minFrames clips = 0 → generateVideo clips = none) := by
  refine ⟨rfl, rfl, ?_⟩
  intro hmin
  cases clips with
  | nil => rfl
  | cons c cs =>
    rw [generateVideo, if_pos hmin]

/-- Witness for C9: the guard fires on a clip list containing an empty
clip. -/
theorem empty_input_spec_witness :
    generateCompositeResult [] GridType.single = none ∧
    generateVideo ([] : List (List ℕ)) = none ∧
    generateVideo [([] : List ℕ), [1, 2]] = none := by
  obtain ⟨h1, h2, h3⟩ := empty_input_spec GridType.single [([] : List ℕ), [1, 2]]
  exact ⟨h1, h2, h3 rfl⟩

/-- Destination rectangle of the i-th cell in the drawing loop of
`generateComposite`: position and size depend only on the first image's
dimensions, the layout kind and the index — for the 2x2 grid every image is
drawn (rescaled) into the first image's cell size, for strips and single
into the first image's native size. -/
def cellPlacement (sourceW sourceH : ℕ) (g : GridType) (index : ℕ) :
    (ℤ × ℤ) × (ℤ × ℤ) :=
  let p := padding sourceW
  let gp := gap sourceW
  match g with
  | GridType.grid2x2 =>
      ((p + ((index % 2 : ℕ) : ℤ) * ((gridCellCrop sourceW sourceH).sW + gp),
        p + ((index / 2 : ℕ) : ℤ) * ((gridCellCrop sourceW sourceH).sH + gp)),
       ((gridCellCrop sourceW sourceH).sW, (gridCellCrop sourceW sourceH).sH))
  | _ => ((p, p + (index : ℤ) * ((sourceH : ℤ) + gp)),
      ((sourceW : ℤ), (sourceH : ℤ)))

/-- Full layout of one `generateComposite` call on a nonempty input: the
canvas dimensions plus the destination rectangle of every cell. -/
def composeLayout (images : List (ℕ × ℕ)) (g : GridType) :
    Option ((ℤ × ℤ) × List ((ℤ × ℤ) × (ℤ × ℤ))) :=
  match images with
  | [] => none
  | (w, h) :: rest =>
      some (compositeDims w h g (rest.length + 1),
        (List.range (rest.length + 1)).map (cellPlacement w h g))

/-- Claim C10: the composite geometry is a function only of the first
raster's dimensions, the layout kind and the list length — rasters after the
first never influence it; composition never rejects a nonempty list, and
every cell's destination size is the first raster's cell size (so a
mismatched later raster is silently rescaled). -/
theorem layout_first_image_spec (w h : ℕ) (g : GridType)
    (rest rest' : List (ℕ × ℕ)) (hlen : rest.length = rest'.length) :
    composeLayout ((w, h) :: rest) g = composeLayout ((w, h) :: rest') g ∧
    (composeLayout ((w, h) :: rest) g).isSome = true ∧
    (∀ i : ℕ, (cellPlacement w h g i).2 =
      if g = GridType.grid2x2
      then ((gridCellCrop w h).sW, (gridCellCrop w h).sH)
      else ((w : ℤ), (h : ℤ))) := by
  refine ⟨by rw [composeLayout, composeLayout, hlen], rfl, ?_⟩
  intro i
  cases g <;> simp [cellPlacement]

/-- Witness for C10: two image lists sharing only the leading 800x600 frame
produce the same layout. -/
theorem layout_first_image_spec_witness :
    composeLayout [(800, 600), (100, 100)] GridType.grid2x2 =
      composeLayout [(800, 600), (50, 70)] GridType.grid2x2 ∧
    (composeLayout [(800, 600), (100, 100)] GridType.grid2x2).isSome = true ∧
    (∀ i : ℕ, (cellPlacement 800 600 GridType.grid2x2 i).2 =
      if GridType.grid2x2 = GridType.grid2x2
      then ((gridCellCrop 800 600).sW, (gridCellCrop 800 600).sH)
      else ((800 : ℤ), (600 : ℤ))) :=
  layout_first_image_spec 800 600 GridType.grid2x2 [(100, 100)] [(50, 70)] rfl

end PhotoBooth
